import Mathlib

set_option linter.unusedVariables false

/-!
Shallow embedding of the whatspace repository: the `spacechk` utility
(src/src/windows/spacechk/spacechk/spacechk.cpp) and the `maxspace` utility
(the unnamed source file of the repository).  Machine `uint64_t` arithmetic is
modelled as `Nat` with explicit `% 2 ^ 64` where overflow matters; I/O against
the device is modelled by explicit outcome environments (one outcome per file
or per probed block), and each C function that the claims mention is translated
into an executable Lean function over those environments.
-/

namespace WhatSpace

/-- Modulus of `uint64_t` arithmetic. -/
def UINT64_MOD : Nat := 2 ^ 64

/-- Size metrics, `constexpr uint64_t KiB = 1024;` etc. (identical in both sources). -/
def KiB : Nat := 1024

def MiB : Nat := KiB * 1024

def GiB : Nat := MiB * 1024

def TiB : Nat := GiB * 1024

/-- The parallel arrays `sizeArray` / `sizeNames` walked by `HumanReadable`,
in source order (TiB first). -/
def sizeTable : List (Nat × String) := [(TiB, "TiB"), (GiB, "GiB"), (MiB, "MiB"), (KiB, "KiB")]

/-- `byteName` / `sizeIsBytes`: label used when the size is below every table entry. -/
def byteName : String := "bytes"

/-- The loop of `HumanReadable`: walk the table, on the first entry with
`sizeInBytes >= sizeArray[i]` return that name and the integer quotient;
if the loop falls through, the size is reported in bytes, unchanged. -/
def HumanReadableAux : List (Nat × String) → Nat → String × Nat
  | [], sizeInBytes => (byteName, sizeInBytes)
  | entry :: rest, sizeInBytes =>
    if sizeInBytes ≥ entry.1 then (entry.2, sizeInBytes / entry.1)
    else HumanReadableAux rest sizeInBytes

/-- `HumanReadable` (spacechk.cpp lines 83-97 and the identical function of the
maxspace source): returns the unit name and the converted size. -/
def HumanReadable (sizeInBytes : Nat) : String × Nat :=
  HumanReadableAux sizeTable sizeInBytes

/-- The 64-bit marker stamped for unit index `i`: the source stores `i + 1`
into a `uint64_t` slot, so the stored value is `(i + 1) % 2 ^ 64`. -/
def stampMarker (i : Nat) : Nat := (i + 1) % UINT64_MOD

/-- The four stamped offsets of a buffer of size `bufSize`:
`dataOffsets = bufSize / 4` and the loop writes at `o * dataOffsets` for
`o = 0, 1, 2, 3` (spacechk.cpp lines 216-222, maxspace lines 330-339). -/
def stampOffsets (bufSize : Nat) : List Nat :=
  [0 * (bufSize / 4), 1 * (bufSize / 4), 2 * (bufSize / 4), 3 * (bufSize / 4)]

/-- A buffer, at the granularity the programs use it: the 64-bit value obtained
by reading eight bytes starting at a given byte offset.  Only the four stamped
offsets are ever written or read, so this granularity loses nothing. -/
def zeroBuf : Nat → Nat := fun _ => 0

/-- Stamp the pattern of unit `i` into a buffer: write `i + 1` (as `uint64_t`)
at each of the four stamped offsets, leaving other locations unchanged. -/
def stampBuffer (bufSize i : Nat) (buf : Nat → Nat) : Nat → Nat :=
  fun off => if off ∈ stampOffsets bufSize then stampMarker i else buf off

/-- The verification comparison both programs perform on a read-back buffer:
every one of the four stamped offsets must hold `seqNum + 1`
(spacechk.cpp lines 357-373, maxspace lines 402-415). -/
def patternMatches (bufSize seqNum : Nat) (buf : Nat → Nat) : Bool :=
  (stampOffsets bufSize).all (fun off => buf off == stampMarker seqNum)

end WhatSpace

namespace Spacechk

open WhatSpace

/-- `fileIOSize = 10 * MiB`: the fixed segment size. -/
def fileIOSize : Nat := 10 * MiB

/-- `filePrefix = L"sp"` of the source (renamed for Lean). -/
def filePrefixStr : String := "sp"

/-- `%06llx` formatting of a sequence number: lowercase hexadecimal, zero-padded
to at least six digits. -/
def hex6 (i : Nat) : String :=
  String.mk (List.replicate (6 - (Nat.toDigits 16 i).length) '0' ++ Nat.toDigits 16 i)

/-- The segment file name built by `CreateFiles`
(`swprintf_s(writeName, L"%hs%s%06llx.bin", pathName, filePrefix, i)`). -/
def segmentFileName (pathName : String) (i : Nat) : String :=
  pathName ++ filePrefixStr ++ hex6 i ++ ".bin"

/-- One `WIN32_FIND_DATA` directory-enumeration entry, reduced to the two
fields the source reads: the (path-free) file name and the directory bit. -/
structure FindData where
  cFileName : String
  isDirectory : Bool
deriving DecidableEq

/-- `wcschr(s, c)`: the tail of `s` after the first occurrence of `c`, or
`none` when `c` does not occur. -/
def afterChar : List Char → Char → Option (List Char)
  | [], _ => none
  | a :: rest, c => if a = c then some rest else afterChar rest c

/-- Value of one hexadecimal digit, `none` on a non-digit. -/
def hexDigitVal (c : Char) : Option Nat :=
  if '0' ≤ c ∧ c ≤ '9' then some (c.toNat - '0'.toNat)
  else if 'a' ≤ c ∧ c ≤ 'f' then some (c.toNat - 'a'.toNat + 10)
  else if 'A' ≤ c ∧ c ≤ 'F' then some (c.toNat - 'A'.toNat + 10)
  else none

/-- Accumulate leading hexadecimal digits. -/
def parseHexAux : List Char → Nat → Nat
  | [], acc => acc
  | c :: rest, acc =>
    match hexDigitVal c with
    | some v => parseHexAux rest (acc * 16 + v)
    | none => acc

/-- `swscanf_s(seqPtr + 1, L"%llx", &seqNum)`: the value of the longest leading
run of hexadecimal digits.  (The source ignores the scanf return value; for the
six-digit names the programs build, a digit is always present.) -/
def parseHex (s : List Char) : Nat := parseHexAux s 0

/-- The enumeration loop of `FindPriorFiles` (spacechk.cpp lines 127-148): skip
directories; on a name with no dash, return the maximum found so far (early
return of the source); otherwise parse the hex after the dash and keep the
maximum. -/
def FindPriorFilesLoop : List FindData → Nat → Nat
  | [], maxSeq => maxSeq
  | fd :: rest, maxSeq =>
    if fd.isDirectory then FindPriorFilesLoop rest maxSeq
    else
      match afterChar fd.cFileName.toList '-' with
      | none => maxSeq
      | some tailChars => FindPriorFilesLoop rest (max (parseHex tailChars) maxSeq)

/-- `FindPriorFiles` (spacechk.cpp lines 111-153): highest sequence number
parsed from the matching directory entries; `0` when enumeration finds
nothing. -/
def FindPriorFiles (entries : List FindData) : Nat :=
  FindPriorFilesLoop entries 0

/-- Per-file outcome of the device during creation: `CreateFile` fails,
`WriteFile` returns 0, or `WriteFile` succeeds reporting `written` bytes. -/
inductive WriteOutcome where
  | createFail
  | writeFail
  | written (bytes : Nat)
deriving DecidableEq

/-- Result of a `CreateFiles` run: the returned `bool`, the indices of the
segments fully created, and the byte offset output via
`OutputSize(L"Reached", ...)`, when any. -/
structure CreateResult where
  success : Bool
  created : List Nat
  reported : Option Nat
deriving DecidableEq

/-- The creation loop of `CreateFiles` (spacechk.cpp lines 187-244), iterating
`i` over the remaining file count.  `CreateFile` failure aborts with no offset
output; `WriteFile` failure aborts and outputs `i * fileIOSize`; a short write
(`written != fileIOSize`) aborts with no offset output; otherwise the stamped
segment is created and the loop continues. -/
def CreateFilesLoop (env : Nat → WriteOutcome) : Nat → Nat → CreateResult
  | _, 0 => ⟨true, [], none⟩
  | i, n + 1 =>
    match env i with
    | .createFail => ⟨false, [], none⟩
    | .writeFail => ⟨false, [], some (i * fileIOSize)⟩
    | .written w =>
      if w = fileIOSize then
        ⟨(CreateFilesLoop env (i + 1) n).success,
          i :: (CreateFilesLoop env (i + 1) n).created,
          (CreateFilesLoop env (i + 1) n).reported⟩
      else ⟨false, [], none⟩

/-- `CreateFiles` (spacechk.cpp lines 157-255): computes
`totalFiles = totalSpace / fileIOSize`, assigns
`startFile = FindPriorFiles(pathName)` — which the loop then never uses, as in
the source (`for (uint64_t i = 0; i < totalFiles; i++)`) — and runs the
creation loop from index 0. -/
def CreateFiles (env : Nat → WriteOutcome) (priorEntries : List FindData)
    (totalSpace : Nat) : CreateResult :=
  let totalFiles := totalSpace / fileIOSize
  let startFile := FindPriorFiles priorEntries
  CreateFilesLoop env 0 totalFiles

/-- Per-file outcome of the device during verification: `CreateFile` (open)
fails, `ReadFile` returns 0, or the read succeeds reporting `bytesRead` bytes
and the buffer content delivered by the device. -/
inductive ReadOutcome where
  | openFail
  | readFail
  | ok (bytesRead : Nat) (buf : Nat → Nat)

/-- Result of a `VerifyFiles` run: the returned `bool`, the byte offsets output
via `OutputSize(L"Reached", ...)`, and the names of the files whose
verification body was entered. -/
structure VerifyResult where
  success : Bool
  reported : List Nat
  examined : List String
deriving DecidableEq

/-- The inner marker loop of `VerifyFiles` (spacechk.cpp lines 357-373): for
each stamped offset whose value differs from `seqNum + 1`, output
`(seqNum + 1) * fileIOSize` as the reached offset; without `keepGoing` the
first mismatch aborts (`true` in the second component). -/
def checkOffsets (buf : Nat → Nat) (seqNum : Nat) (keepGoing : Bool) :
    List Nat → List Nat × Bool
  | [] => ([], false)
  | off :: rest =>
    if buf off ≠ WhatSpace.stampMarker seqNum then
      if keepGoing then
        (((seqNum + 1) * fileIOSize) :: (checkOffsets buf seqNum keepGoing rest).1,
          (checkOffsets buf seqNum keepGoing rest).2)
      else ([(seqNum + 1) * fileIOSize], true)
    else checkOffsets buf seqNum keepGoing rest

/-- The enumeration loop of `VerifyFiles` (spacechk.cpp lines 291-378): skip
directories; open and read each file (open failure, read failure and a short
read each return `false` with no offset output); extract the sequence number
from the characters after the first dash of the full name (`wcschr(verifyName,
'-')`), returning `false` when there is no dash; then compare the four stamped
offsets. -/
def VerifyFilesLoop (pathName : String) (store : String → ReadOutcome)
    (keepGoing : Bool) : List FindData → VerifyResult
  | [] => ⟨true, [], []⟩
  | fd :: rest =>
    if fd.isDirectory then VerifyFilesLoop pathName store keepGoing rest
    else
      match store (pathName ++ fd.cFileName) with
      | .openFail => ⟨false, [], [pathName ++ fd.cFileName]⟩
      | .readFail => ⟨false, [], [pathName ++ fd.cFileName]⟩
      | .ok bytesRead buf =>
        if bytesRead ≠ fileIOSize then ⟨false, [], [pathName ++ fd.cFileName]⟩
        else
          match afterChar (pathName ++ fd.cFileName).toList '-' with
          | none => ⟨false, [], [pathName ++ fd.cFileName]⟩
          | some seqChars =>
            if (checkOffsets buf (parseHex seqChars) keepGoing
                (WhatSpace.stampOffsets fileIOSize)).2 then
              ⟨false,
                (checkOffsets buf (parseHex seqChars) keepGoing
                  (WhatSpace.stampOffsets fileIOSize)).1,
                [pathName ++ fd.cFileName]⟩
            else
              ⟨(VerifyFilesLoop pathName store keepGoing rest).success,
                (checkOffsets buf (parseHex seqChars) keepGoing
                  (WhatSpace.stampOffsets fileIOSize)).1 ++
                  (VerifyFilesLoop pathName store keepGoing rest).reported,
                (pathName ++ fd.cFileName) ::
                  (VerifyFilesLoop pathName store keepGoing rest).examined⟩

/-- `VerifyFiles` (spacechk.cpp lines 259-391): `FindFirstFile` failing (no
matching entry) returns `false`; otherwise the enumeration loop runs. -/
def VerifyFiles (pathName : String) (store : String → ReadOutcome)
    (keepGoing : Bool) (entries : List FindData) : VerifyResult :=
  match entries with
  | [] => ⟨false, [], []⟩
  | _ => VerifyFilesLoop pathName store keepGoing entries

/-- The directory entries left behind by a completed `CreateFiles` run of
`totalFiles` segments: one non-directory entry named `sp<hex6>.bin` per
index. -/
def createdEntries (totalFiles : Nat) : List FindData :=
  (List.range totalFiles).map (fun i => ⟨filePrefixStr ++ hex6 i ++ ".bin", false⟩)

/-- The fault-free store left behind by a completed `CreateFiles` run: each
segment file holds exactly the buffer that was stamped for its index (the
writes were full and nothing decayed), and any other name fails to open. -/
def createdStore (pathName : String) (totalFiles : Nat) : String → ReadOutcome :=
  fun name =>
    match (List.range totalFiles).find? (fun i => segmentFileName pathName i == name) with
    | some i => ReadOutcome.ok fileIOSize (WhatSpace.stampBuffer fileIOSize i WhatSpace.zeroBuf)
    | none => ReadOutcome.openFail

/-- The free/total space computation of `main` (spacechk.cpp lines 558-566):
a `uint64_t` accumulator starts from `bytesPerSector` and is multiplied in turn
by `sectorsPerCluster` and by the cluster count, each step in 64-bit
arithmetic. -/
def deriveSpace (bytesPerSector sectorsPerCluster clusterCount : Nat) : Nat :=
  ((bytesPerSector % UINT64_MOD) * sectorsPerCluster % UINT64_MOD)
    * clusterCount % UINT64_MOD

end Spacechk

namespace Maxspace

open WhatSpace

/-- `verifySize = 10 * MiB`: the probe stride of the maxspace source. -/
def verifySize : Nat := 10 * MiB

/-- The five allocation steps of `CreateVerifyFile`, in source order. -/
inductive AllocStep where
  | addPrivilege
  | createFile
  | setFilePointer
  | setEndOfFile
  | setFileValidData
deriving DecidableEq

/-- The allocation sequence in source order. -/
def allocSteps : List AllocStep :=
  [AllocStep.addPrivilege, AllocStep.createFile, AllocStep.setFilePointer,
    AllocStep.setEndOfFile, AllocStep.setFileValidData]

/-- The `j`-th allocation step. -/
def stepAt (j : Nat) : AllocStep := allocSteps.getD j AllocStep.addPrivilege

/-- Result of `CreateVerifyFile`: the returned `bool` and the allocation steps
that were attempted. -/
structure AllocResult where
  success : Bool
  performed : List AllocStep
deriving DecidableEq

/-- `CreateVerifyFile` (maxspace source lines 150-219): acquire the
`SE_MANAGE_VOLUME_NAME` privilege, create the file, move the file pointer to
`totalSpace`, set the end of file, set the valid-data length; each failing step
returns `false` at once, and a final `CloseHandle` failure also returns
`false` after all five steps ran.  `env` records which steps the environment
lets succeed. -/
def CreateVerifyFile (env : AllocStep → Bool) (closeOk : Bool) : AllocResult :=
  if !env AllocStep.addPrivilege then ⟨false, [AllocStep.addPrivilege]⟩
  else if !env AllocStep.createFile then
    ⟨false, [AllocStep.addPrivilege, AllocStep.createFile]⟩
  else if !env AllocStep.setFilePointer then
    ⟨false, [AllocStep.addPrivilege, AllocStep.createFile, AllocStep.setFilePointer]⟩
  else if !env AllocStep.setEndOfFile then
    ⟨false, [AllocStep.addPrivilege, AllocStep.createFile, AllocStep.setFilePointer,
      AllocStep.setEndOfFile]⟩
  else if !env AllocStep.setFileValidData then ⟨false, allocSteps⟩
  else if !closeOk then ⟨false, allocSteps⟩
  else ⟨true, allocSteps⟩

/-- Device behaviour at one probed block of `VerifyTheFile`: whether the seek
succeeds, the `WriteFile` result (`none` = call fails, `some n` = `n` bytes
written), whether the seek back succeeds, and the `ReadFile` result (`none` =
call fails, `some (n, buf)` = `n` bytes read, buffer content `buf`). -/
structure BlockEnv where
  seekOk : Bool
  writeResult : Option Nat
  seekBackOk : Bool
  readResult : Option (Nat × (Nat → Nat))

/-- The per-block body of the probe loop (maxspace source lines 316-415),
returning `true` when the block fails and the loop must abort: seek failure;
write failure; short write; then — unless `noReads` — seek-back failure, read
failure, short read, or any stamped offset differing from `count + 1`.  Every
failing path outputs the current byte offset and returns `false` from
`VerifyTheFile`. -/
def blockStep (bytesPerSector : Nat) (noReads : Bool) (count : Nat) (e : BlockEnv) : Bool :=
  if !e.seekOk then true
  else
    match e.writeResult with
    | none => true
    | some written =>
      if written ≠ bytesPerSector then true
      else if noReads then false
      else if !e.seekBackOk then true
      else
        match e.readResult with
        | none => true
        | some (bytesRead, buf) =>
          if bytesRead ≠ bytesPerSector then true
          else !(WhatSpace.patternMatches bytesPerSector count buf)

/-- Result of the probe pass: the returned `bool`, the byte offset output on
the failing block (`OutputSize` of the current offset `i`), and the indices of
the blocks whose body was entered. -/
structure ProbeResult where
  success : Bool
  reported : Option Nat
  probed : List Nat
deriving DecidableEq

/-- The probe loop of `VerifyTheFile`
(`for (LONGLONG i = 0; i < fileSize.QuadPart; i += verifySize)`, maxspace
source lines 301-420): at offset `i` (block index `count`) run the block body;
a failing block reports offset `i` and stops; otherwise advance by
`verifySize`. -/
def VerifyLoop (env : Nat → BlockEnv) (bytesPerSector : Nat) (noReads : Bool)
    (fileSize : Nat) (step : Nat) (hstep : 0 < step) (i count : Nat) : ProbeResult :=
  if h : i < fileSize then
    if blockStep bytesPerSector noReads count (env count) then
      ⟨false, some i, [count]⟩
    else
      ⟨(VerifyLoop env bytesPerSector noReads fileSize step hstep
          (i + step) (count + 1)).success,
        (VerifyLoop env bytesPerSector noReads fileSize step hstep
          (i + step) (count + 1)).reported,
        count :: (VerifyLoop env bytesPerSector noReads fileSize step hstep
          (i + step) (count + 1)).probed⟩
  else ⟨true, none, []⟩
termination_by fileSize - i
decreasing_by omega

/-- `VerifyTheFile` (maxspace source lines 241-429), restricted to its probe
loop: the preamble (open, size query, aligned-buffer allocation) is
environment interaction that precedes the claims' loop.  The stride is the
constant `verifySize` of the source (passed with its positivity, which the
loop's termination needs); the loop starts at offset 0, block 0. -/
def VerifyTheFile (env : Nat → BlockEnv) (bytesPerSector : Nat) (noReads : Bool)
    (fileSize : Nat) : ProbeResult :=
  VerifyLoop env bytesPerSector noReads fileSize verifySize
    (by norm_num [verifySize, WhatSpace.MiB, WhatSpace.KiB]) 0 0

/-- A device that behaves perfectly for every block: seeks succeed, the full
sector is written, and reading returns exactly the stamped buffer. -/
def allOkBlockEnv (bytesPerSector : Nat) : Nat → BlockEnv :=
  fun count =>
    ⟨true, some bytesPerSector, true,
      some (bytesPerSector, WhatSpace.stampBuffer bytesPerSector count WhatSpace.zeroBuf)⟩

end Maxspace

/-! Concrete environments used by witnesses and counterexamples. -/

/-- A spacechk creation environment where every write succeeds in full. -/
def spacechkAllOk : Nat → Spacechk.WriteOutcome :=
  fun _ => Spacechk.WriteOutcome.written Spacechk.fileIOSize

/-- Creation environment whose first two files succeed and whose third write
call fails. -/
def c6Env : Nat → Spacechk.WriteOutcome :=
  fun j =>
    if j < 2 then Spacechk.WriteOutcome.written Spacechk.fileIOSize
    else Spacechk.WriteOutcome.writeFail

/-- Creation environment where every `CreateFile` call fails. -/
def c6CounterEnv : Nat → Spacechk.WriteOutcome :=
  fun _ => Spacechk.WriteOutcome.createFail

/-- Verification store where every `ReadFile` call fails. -/
def c7CounterStore : String → Spacechk.ReadOutcome :=
  fun _ => Spacechk.ReadOutcome.readFail

/-- Verification store that reads back an all-zero buffer in full. -/
def c7WitnessStore : String → Spacechk.ReadOutcome :=
  fun _ => Spacechk.ReadOutcome.ok Spacechk.fileIOSize WhatSpace.zeroBuf

/-- maxspace device whose block 0 behaves perfectly and whose block 1 fails the
seek. -/
def c3FailEnv : Nat → Maxspace.BlockEnv :=
  fun j => if j = 0 then Maxspace.allOkBlockEnv 4096 j else ⟨false, none, false, none⟩

/-- maxspace allocation environment where only `SetEndOfFile` fails. -/
def c5Env : Maxspace.AllocStep → Bool
  | Maxspace.AllocStep.setEndOfFile => false
  | _ => true

/-! Helper lemmas shared by the claim theorems. -/

/-- Stamping unit `i` over a buffer previously stamped for unit `j` rewrites all
four stamped offsets, so the result is the same as stamping `i` over the
original buffer.  (The programs reuse one buffer across iterations; this is why
the content written for file `i` equals `stampBuffer _ i zeroBuf`.) -/
theorem stampBuffer_stampBuffer (bufSize i j : Nat) (buf : Nat → Nat) :
    WhatSpace.stampBuffer bufSize i (WhatSpace.stampBuffer bufSize j buf)
      = WhatSpace.stampBuffer bufSize i buf := by
  funext off
  by_cases h : off ∈ WhatSpace.stampOffsets bufSize <;> simp [WhatSpace.stampBuffer, h]

/-- A freshly stamped buffer always passes the verification comparison for the
same index (round-trip law at the buffer level). -/
theorem patternMatches_stampBuffer (bufSize i : Nat) (buf : Nat → Nat) :
    WhatSpace.patternMatches bufSize i (WhatSpace.stampBuffer bufSize i buf) = true := by
  rw [WhatSpace.patternMatches, List.all_eq_true]
  intro off hoff
  simp [WhatSpace.stampBuffer, hoff]

/-! Claim theorems. -/

/-- Claim C1 (refuted; code bug): segmented-file creation is claimed to resume
after the highest previously-used sequence number.  In the code, `CreateFiles`
assigns `startFile = FindPriorFiles(pathName)` but the creation loop runs
`for (i = 0; i < totalFiles; i++)`, never using `startFile`: with segments
0..2 already on disk, a new run re-creates segments 0..2 (first conjunct), and
creation is entirely independent of the prior-file scan (second conjunct). -/
theorem claim_C1_startFile_unused :
    (Spacechk.CreateFiles spacechkAllOk (Spacechk.createdEntries 3)
        (5 * Spacechk.fileIOSize)).created = [0, 1, 2, 3, 4]
    ∧ ∀ (env : Nat → Spacechk.WriteOutcome) (e₁ e₂ : List Spacechk.FindData) (ts : Nat),
        Spacechk.CreateFiles env e₁ ts = Spacechk.CreateFiles env e₂ ts := by
  exact ⟨by decide, fun env e₁ e₂ ts => rfl⟩

/-- Claim C2 (refuted; code bug): on a fault-free store produced by a completed
creation run (here: one segment, correctly stamped — first conjunct), the
verification pass nevertheless returns failure (second conjunct), because
`VerifyFiles` extracts the sequence number from the characters after a dash
(`wcschr(verifyName, '-')`) while `CreateFiles` builds names `sp%06llx.bin`
that contain no dash. -/
theorem claim_C2_verification_rejects_created_store :
    WhatSpace.patternMatches Spacechk.fileIOSize 0
        (WhatSpace.stampBuffer Spacechk.fileIOSize 0 WhatSpace.zeroBuf) = true
    ∧ (Spacechk.VerifyFiles "e:\\" (Spacechk.createdStore "e:\\" 1) false
        (Spacechk.createdEntries 1)).success = false := by
  exact ⟨by decide, by decide⟩

/-- Claim C9, counterexample: with the three 32-bit inputs all equal to
`2 ^ 22`, the exact product is `2 ^ 66`, but the code's 64-bit accumulation
yields `0` — the derived space does not equal the exact mathematical product
for all 32-bit inputs. -/
theorem claim_C9_counterexample :
    Spacechk.deriveSpace 4194304 4194304 4194304 = 0
    ∧ 4194304 * 4194304 * 4194304 ≠ 0 := by
  exact ⟨by decide, by decide⟩

/-- Claim C9 as amended: the accumulation is promoted to 64 bits before each
multiplication, so the derived space equals the exact product reduced modulo
`2 ^ 64`; whenever the exact product fits in 64 bits it is exact. -/
theorem claim_C9_amended (b s c : Nat)
    (hb : b < 2 ^ 32) (hs : s < 2 ^ 32) (hc : c < 2 ^ 32) :
    Spacechk.deriveSpace b s c = b * s * c % WhatSpace.UINT64_MOD
    ∧ (b * s * c < WhatSpace.UINT64_MOD → Spacechk.deriveSpace b s c = b * s * c) := by
  have h1 : Spacechk.deriveSpace b s c = b * s * c % WhatSpace.UINT64_MOD := by
    simp [Spacechk.deriveSpace, Nat.mul_mod]
  exact ⟨h1, fun hlt => by rw [h1, Nat.mod_eq_of_lt hlt]⟩

/-- Witness for C9's amended theorem at `4096, 4096, 4096`. -/
theorem claim_C9_witness :
    Spacechk.deriveSpace 4096 4096 4096 = 4096 * 4096 * 4096 :=
  (claim_C9_amended 4096 4096 4096 (by norm_num) (by norm_num) (by norm_num)).2
    (by norm_num [WhatSpace.UINT64_MOD])

/-- Claim C10 (confirmed): the human-readable conversion returns `bytes` with
the size unchanged for sizes below 1024, and otherwise the table entry that is
the largest unit not exceeding the size, with the floor quotient as converted
value. -/
theorem claim_C10_human_readable (s : Nat) :
    (s < WhatSpace.KiB → WhatSpace.HumanReadable s = (WhatSpace.byteName, s))
    ∧ ∀ p ∈ WhatSpace.sizeTable, p.1 ≤ s →
        (∀ q ∈ WhatSpace.sizeTable, q.1 ≤ s → q.1 ≤ p.1) →
        WhatSpace.HumanReadable s = (p.2, s / p.1) := by
  have hK : WhatSpace.KiB = 1024 := by norm_num [WhatSpace.KiB]
  have hM : WhatSpace.MiB = 1048576 := by norm_num [WhatSpace.MiB, WhatSpace.KiB]
  have hG : WhatSpace.GiB = 1073741824 := by
    norm_num [WhatSpace.GiB, WhatSpace.MiB, WhatSpace.KiB]
  have hT : WhatSpace.TiB = 1099511627776 := by
    norm_num [WhatSpace.TiB, WhatSpace.GiB, WhatSpace.MiB, WhatSpace.KiB]
  constructor
  · intro hs
    rw [hK] at hs
    simp only [WhatSpace.HumanReadable, WhatSpace.sizeTable, WhatSpace.HumanReadableAux]
    rw [if_neg (by simp only [ge_iff_le]; rw [hT]; omega),
      if_neg (by simp only [ge_iff_le]; rw [hG]; omega),
      if_neg (by simp only [ge_iff_le]; rw [hM]; omega),
      if_neg (by simp only [ge_iff_le]; rw [hK]; omega)]
  · intro p hp hle hmax
    simp only [WhatSpace.sizeTable, List.mem_cons, List.not_mem_nil, or_false] at hp
    have hTG : ¬ WhatSpace.TiB ≤ WhatSpace.GiB := by rw [hT, hG]; omega
    have hTM : ¬ WhatSpace.TiB ≤ WhatSpace.MiB := by rw [hT, hM]; omega
    have hTK : ¬ WhatSpace.TiB ≤ WhatSpace.KiB := by rw [hT, hK]; omega
    have hGM : ¬ WhatSpace.GiB ≤ WhatSpace.MiB := by rw [hG, hM]; omega
    have hGK : ¬ WhatSpace.GiB ≤ WhatSpace.KiB := by rw [hG, hK]; omega
    have hMK : ¬ WhatSpace.MiB ≤ WhatSpace.KiB := by rw [hM, hK]; omega
    rcases hp with rfl | rfl | rfl | rfl
    · simp only [WhatSpace.HumanReadable, WhatSpace.sizeTable, WhatSpace.HumanReadableAux]
      rw [if_pos hle]
    · have hnT : ¬ WhatSpace.TiB ≤ s := fun h =>
        hTG (hmax (WhatSpace.TiB, "TiB") (by simp [WhatSpace.sizeTable]) h)
      simp only [WhatSpace.HumanReadable, WhatSpace.sizeTable, WhatSpace.HumanReadableAux]
      rw [if_neg hnT, if_pos hle]
    · have hnT : ¬ WhatSpace.TiB ≤ s := fun h =>
        hTM (hmax (WhatSpace.TiB, "TiB") (by simp [WhatSpace.sizeTable]) h)
      have hnG : ¬ WhatSpace.GiB ≤ s := fun h =>
        hGM (hmax (WhatSpace.GiB, "GiB") (by simp [WhatSpace.sizeTable]) h)
      simp only [WhatSpace.HumanReadable, WhatSpace.sizeTable, WhatSpace.HumanReadableAux]
      rw [if_neg hnT, if_neg hnG, if_pos hle]
    · have hnT : ¬ WhatSpace.TiB ≤ s := fun h =>
        hTK (hmax (WhatSpace.TiB, "TiB") (by simp [WhatSpace.sizeTable]) h)
      have hnG : ¬ WhatSpace.GiB ≤ s := fun h =>
        hGK (hmax (WhatSpace.GiB, "GiB") (by simp [WhatSpace.sizeTable]) h)
      have hnM : ¬ WhatSpace.MiB ≤ s := fun h =>
        hMK (hmax (WhatSpace.MiB, "MiB") (by simp [WhatSpace.sizeTable]) h)
      simp only [WhatSpace.HumanReadable, WhatSpace.sizeTable, WhatSpace.HumanReadableAux]
      rw [if_neg hnT, if_neg hnG, if_neg hnM, if_pos hle]

/-- Witness for C10 at `s = 2048`: the largest unit not exceeding 2048 is KiB
and the converted value is the floor quotient. -/
theorem claim_C10_witness :
    WhatSpace.HumanReadable 2048 = ("KiB", 2048 / WhatSpace.KiB) :=
  (claim_C10_human_readable 2048).2 (WhatSpace.KiB, "KiB")
    (by simp [WhatSpace.sizeTable]) (by decide) (by decide)

/-- Claim C4 (confirmed): the stamped pattern writes the 64-bit marker `i + 1`
at offset 0 and three further quartile offsets of the buffer; for every index
the program can reach (`i + 1` below `2 ^ 64`, which holds for any index below
`totalSpace / fileIOSize` — last conjunct) the marker is nonzero, and an
all-zero buffer never passes the pattern comparison, index 0 included. -/
theorem claim_C4_stamped_pattern (bufSize i : Nat) (buf : Nat → Nat) :
    WhatSpace.stampOffsets bufSize
        = [0, bufSize / 4, 2 * (bufSize / 4), 3 * (bufSize / 4)]
    ∧ (∀ off ∈ WhatSpace.stampOffsets bufSize,
        WhatSpace.stampBuffer bufSize i buf off = WhatSpace.stampMarker i)
    ∧ (i < WhatSpace.UINT64_MOD - 1 → WhatSpace.stampMarker i ≠ 0)
    ∧ (i < WhatSpace.UINT64_MOD - 1 →
        WhatSpace.patternMatches bufSize i WhatSpace.zeroBuf = false)
    ∧ ∀ totalSpace, totalSpace < WhatSpace.UINT64_MOD →
        i < totalSpace / Spacechk.fileIOSize → i < WhatSpace.UINT64_MOD - 1 := by
  have h64 : WhatSpace.UINT64_MOD = 18446744073709551616 := by
    norm_num [WhatSpace.UINT64_MOD]
  have hmark : i < WhatSpace.UINT64_MOD - 1 → WhatSpace.stampMarker i ≠ 0 := by
    intro hi
    rw [h64] at hi
    rw [WhatSpace.stampMarker, h64]
    omega
  refine ⟨by simp [WhatSpace.stampOffsets], ?_, hmark, ?_, ?_⟩
  · intro off hoff
    simp [WhatSpace.stampBuffer, hoff]
  · intro hi
    have h3 := hmark hi
    rw [WhatSpace.patternMatches, List.all_eq_false]
    refine ⟨0 * (bufSize / 4), by simp [WhatSpace.stampOffsets], ?_⟩
    simp only [WhatSpace.zeroBuf, beq_iff_eq]
    exact fun h => h3 h.symm
  · intro totalSpace hts hi
    have hd := Nat.div_le_self totalSpace Spacechk.fileIOSize
    omega

/-- Witness for C4 at buffer size 4096 and index 0. -/
theorem claim_C4_witness :
    WhatSpace.stampMarker 0 ≠ 0
    ∧ WhatSpace.patternMatches 4096 0 WhatSpace.zeroBuf = false :=
  ⟨(claim_C4_stamped_pattern 4096 0 WhatSpace.zeroBuf).2.2.1 (by decide),
    (claim_C4_stamped_pattern 4096 0 WhatSpace.zeroBuf).2.2.2.1 (by decide)⟩

/-- Claim C5 (confirmed): fast allocation performs all five steps exactly when
every step succeeds (first conjunct; the returned `bool` then also reflects the
trailing `CloseHandle`), and whenever step `k` is the first failing step the
function returns failure having attempted only steps `0..k` — no later
allocation step runs (second conjunct). -/
theorem claim_C5_fast_allocation (env : Maxspace.AllocStep → Bool) (closeOk : Bool) :
    ((∀ s, env s = true) →
      Maxspace.CreateVerifyFile env closeOk = ⟨closeOk, Maxspace.allocSteps⟩)
    ∧ ∀ k, k < 5 → (∀ j, j < k → env (Maxspace.stepAt j) = true) →
        env (Maxspace.stepAt k) = false →
        Maxspace.CreateVerifyFile env closeOk
          = ⟨false, Maxspace.allocSteps.take (k + 1)⟩ := by
  constructor
  · intro hall
    cases closeOk <;> simp [Maxspace.CreateVerifyFile, hall]
  · intro k hk h1 h2
    interval_cases k
    · have f0 : env Maxspace.AllocStep.addPrivilege = false := h2
      simp [Maxspace.CreateVerifyFile, Maxspace.allocSteps, f0]
    · have e0 : env Maxspace.AllocStep.addPrivilege = true := h1 0 (by omega)
      have f1 : env Maxspace.AllocStep.createFile = false := h2
      simp [Maxspace.CreateVerifyFile, Maxspace.allocSteps, e0, f1]
    · have e0 : env Maxspace.AllocStep.addPrivilege = true := h1 0 (by omega)
      have e1 : env Maxspace.AllocStep.createFile = true := h1 1 (by omega)
      have f2 : env Maxspace.AllocStep.setFilePointer = false := h2
      simp [Maxspace.CreateVerifyFile, Maxspace.allocSteps, e0, e1, f2]
    · have e0 : env Maxspace.AllocStep.addPrivilege = true := h1 0 (by omega)
      have e1 : env Maxspace.AllocStep.createFile = true := h1 1 (by omega)
      have e2 : env Maxspace.AllocStep.setFilePointer = true := h1 2 (by omega)
      have f3 : env Maxspace.AllocStep.setEndOfFile = false := h2
      simp [Maxspace.CreateVerifyFile, Maxspace.allocSteps, e0, e1, e2, f3]
    · have e0 : env Maxspace.AllocStep.addPrivilege = true := h1 0 (by omega)
      have e1 : env Maxspace.AllocStep.createFile = true := h1 1 (by omega)
      have e2 : env Maxspace.AllocStep.setFilePointer = true := h1 2 (by omega)
      have e3 : env Maxspace.AllocStep.setEndOfFile = true := h1 3 (by omega)
      have f4 : env Maxspace.AllocStep.setFileValidData = false := h2
      simp [Maxspace.CreateVerifyFile, Maxspace.allocSteps, e0, e1, e2, e3, f4]

/-- Witness for C5: with `SetEndOfFile` as the first failing step, allocation
returns failure after attempting exactly the first four steps. -/
theorem claim_C5_witness :
    Maxspace.CreateVerifyFile c5Env true = ⟨false, Maxspace.allocSteps.take 4⟩ :=
  (claim_C5_fast_allocation c5Env true).2 3 (by omega) (by decide) (by decide)

/-- A perfectly behaving block never makes the probe body fail. -/
theorem blockStep_allOk (bps : Nat) (noReads : Bool) (j : Nat) :
    Maxspace.blockStep bps noReads j (Maxspace.allOkBlockEnv bps j) = false := by
  cases noReads <;>
    simp [Maxspace.blockStep, Maxspace.allOkBlockEnv, patternMatches_stampBuffer]

/-- One ceiling-division step: for positive `a`, the block count of a span of
`a` bytes is one more than that of `a - step` bytes. -/
theorem ceil_div_succ (step : Nat) (hstep : 0 < step) (a : Nat) (ha : 0 < a) :
    (a + step - 1) / step = (a - step + step - 1) / step + 1 := by
  rcases Nat.lt_or_ge a (step + 1) with hlt | hge
  · have h1 : a + step - 1 = (a - 1) + step := by omega
    have h2 : a - step = 0 := by omega
    rw [h1, Nat.add_div_right _ hstep, h2, Nat.zero_add,
      Nat.div_eq_of_lt (show a - 1 < step by omega),
      Nat.div_eq_of_lt (show step - 1 < step by omega)]
  · have h3 : a + step - 1 = (a - step + step - 1) + step := by omega
    rw [h3, Nat.add_div_right _ hstep]

/-- The probe loop on an all-good device succeeds, probing one block per loop
iteration: `ceil((fileSize - i) / step)` blocks starting at `count`. -/
theorem verifyLoop_all_ok (env : Nat → Maxspace.BlockEnv) (bps : Nat) (noReads : Bool)
    (hok : ∀ j, Maxspace.blockStep bps noReads j (env j) = false)
    (step : Nat) (hstep : 0 < step) :
    ∀ (d fileSize i count : Nat), fileSize - i ≤ d →
      Maxspace.VerifyLoop env bps noReads fileSize step hstep i count
        = ⟨true, none, List.range' count ((fileSize - i + step - 1) / step)⟩ := by
  intro d
  induction d with
  | zero =>
    intro fileSize i count hd
    rw [Maxspace.VerifyLoop]
    rw [dif_neg (by omega)]
    have hz : (fileSize - i + step - 1) / step = 0 := by
      rw [show fileSize - i = 0 by omega, Nat.zero_add]
      exact Nat.div_eq_of_lt (by omega)
    rw [hz]
    rfl
  | succ d ih =>
    intro fileSize i count hd
    rw [Maxspace.VerifyLoop]
    by_cases hlt : i < fileSize
    · rw [dif_pos hlt]
      rw [if_neg (by simp [hok count])]
      rw [ih fileSize (i + step) (count + 1) (by omega)]
      have hsz : (fileSize - i + step - 1) / step
          = (fileSize - (i + step) + step - 1) / step + 1 := by
        rw [show fileSize - (i + step) = fileSize - i - step by omega]
        exact ceil_div_succ step hstep (fileSize - i) (by omega)
      rw [hsz]
      rfl
    · rw [dif_neg hlt]
      have hz : (fileSize - i + step - 1) / step = 0 := by
        rw [show fileSize - i = 0 by omega, Nat.zero_add]
        exact Nat.div_eq_of_lt (by omega)
      rw [hz]
      rfl

/-- The probe loop aborts at the first failing block: blocks `c..c+k-1` pass,
block `c+k` fails inside the file, so the loop reports that block's byte offset
and probes nothing further. -/
theorem verifyLoop_first_fail (env : Nat → Maxspace.BlockEnv) (bps : Nat) (noReads : Bool)
    (fileSize : Nat) (step : Nat) (hstep : 0 < step) :
    ∀ k c, (∀ j, j < k →
        Maxspace.blockStep bps noReads (c + j) (env (c + j)) = false) →
      Maxspace.blockStep bps noReads (c + k) (env (c + k)) = true →
      (c + k) * step < fileSize →
      Maxspace.VerifyLoop env bps noReads fileSize step hstep (c * step) c
        = ⟨false, some ((c + k) * step), List.range' c (k + 1)⟩ := by
  intro k
  induction k with
  | zero =>
    intro c hok hfail hin
    have hf : Maxspace.blockStep bps noReads c (env c) = true := by simpa using hfail
    have hc : c * step < fileSize := by simpa using hin
    rw [Maxspace.VerifyLoop]
    rw [dif_pos hc]
    rw [if_pos (by rw [hf])]
    simp
  | succ k ih =>
    intro c hok hfail hin
    have h0 : Maxspace.blockStep bps noReads c (env c) = false := by
      simpa using hok 0 (by omega)
    have hc : c * step < fileSize := by
      have hle : c * step ≤ (c + (k + 1)) * step :=
        Nat.mul_le_mul_right _ (by omega)
      omega
    rw [Maxspace.VerifyLoop]
    rw [dif_pos hc]
    rw [if_neg (by simp [h0])]
    have hone : c * step + step = (c + 1) * step := by ring
    rw [hone]
    rw [ih (c + 1)
      (fun j hj => by
        have hx := hok (j + 1) (by omega)
        rwa [show c + (j + 1) = c + 1 + j by omega] at hx)
      (by
        have hx := hfail
        rwa [show c + (k + 1) = c + 1 + k by omega] at hx)
      (by rwa [show c + (k + 1) = c + 1 + k by omega] at hin)]
    rw [show c + 1 + k = c + (k + 1) by omega]
    rfl

/-- The creation loop with `n` successful full writes from index `s` creates
exactly the segments `s..s+n-1` and succeeds. -/
theorem createLoop_all_ok (env : Nat → Spacechk.WriteOutcome) :
    ∀ n s, (∀ j, j < n →
        env (s + j) = Spacechk.WriteOutcome.written Spacechk.fileIOSize) →
      Spacechk.CreateFilesLoop env s n = ⟨true, List.range' s n, none⟩ := by
  intro n
  induction n with
  | zero => intro s h; rfl
  | succ n ih =>
    intro s h
    have h0 : env s = Spacechk.WriteOutcome.written Spacechk.fileIOSize := by
      simpa using h 0 (by omega)
    simp only [Spacechk.CreateFilesLoop, h0]
    rw [ih (s + 1) (fun j hj => by
      have hx := h (j + 1) (by omega)
      rwa [show s + (j + 1) = s + 1 + j by omega] at hx)]
    simp [List.range'_succ]

/-- Splitting the creation loop after `i` initial successful full writes. -/
theorem createLoop_split (env : Nat → Spacechk.WriteOutcome) :
    ∀ (i s n : Nat), i ≤ n →
      (∀ j, j < i → env (s + j) = Spacechk.WriteOutcome.written Spacechk.fileIOSize) →
      Spacechk.CreateFilesLoop env s n
        = ⟨(Spacechk.CreateFilesLoop env (s + i) (n - i)).success,
            List.range' s i ++ (Spacechk.CreateFilesLoop env (s + i) (n - i)).created,
            (Spacechk.CreateFilesLoop env (s + i) (n - i)).reported⟩ := by
  intro i
  induction i with
  | zero =>
    intro s n _ _
    simp
  | succ i ih =>
    intro s n hin hok
    obtain ⟨m, rfl⟩ : ∃ m, n = m + 1 := ⟨n - 1, by omega⟩
    have h0 : env s = Spacechk.WriteOutcome.written Spacechk.fileIOSize := by
      simpa using hok 0 (by omega)
    simp only [Spacechk.CreateFilesLoop, h0]
    rw [ih (s + 1) m (by omega) (fun j hj => by
      have hx := hok (j + 1) (by omega)
      rwa [show s + (j + 1) = s + 1 + j by omega] at hx)]
    rw [show s + 1 + i = s + (i + 1) by omega,
      show m - i = m + 1 - (i + 1) by omega]
    simp [List.range'_succ]

/-- Without `keepGoing`, any mismatching stamped offset makes the marker loop
output `(seqNum + 1) * fileIOSize` once and abort. -/
theorem checkOffsets_first_fail (buf : Nat → Nat) (seqNum : Nat) :
    ∀ offs : List Nat, (∃ off ∈ offs, buf off ≠ WhatSpace.stampMarker seqNum) →
      Spacechk.checkOffsets buf seqNum false offs
        = ([(seqNum + 1) * Spacechk.fileIOSize], true) := by
  intro offs
  induction offs with
  | nil => intro h; simp at h
  | cons a rest ih =>
    intro h
    by_cases ha : buf a = WhatSpace.stampMarker seqNum
    · have hrest : ∃ off ∈ rest, buf off ≠ WhatSpace.stampMarker seqNum := by
        rcases h with ⟨off, hmem, hne⟩
        rcases List.mem_cons.mp hmem with rfl | hmem2
        · exact absurd ha hne
        · exact ⟨off, hmem2, hne⟩
      rw [show Spacechk.checkOffsets buf seqNum false (a :: rest)
          = Spacechk.checkOffsets buf seqNum false rest from by
        simp [Spacechk.checkOffsets, ha]]
      exact ih hrest
    · simp [Spacechk.checkOffsets, ha]

/-- Claim C3 (confirmed): in the single-file probe pass, whenever blocks
`0..k-1` pass and block `k` (offset `k * verifySize`) hits any failure — seek,
write, short write, seek-back, read, short read, or pattern mismatch, all of
which `blockStep` folds into a failing block — the pass returns failure,
reports the current byte offset `k * verifySize`, and probes exactly the
blocks `0..k` (no later offset). -/
theorem claim_C3_probe_fail_fast (env : Nat → Maxspace.BlockEnv) (bps : Nat)
    (noReads : Bool) (fileSize k : Nat)
    (hok : ∀ j, j < k → Maxspace.blockStep bps noReads j (env j) = false)
    (hfail : Maxspace.blockStep bps noReads k (env k) = true)
    (hin : k * Maxspace.verifySize < fileSize) :
    Maxspace.VerifyTheFile env bps noReads fileSize
      = ⟨false, some (k * Maxspace.verifySize), List.range (k + 1)⟩ := by
  have h := verifyLoop_first_fail env bps noReads fileSize Maxspace.verifySize
    (by norm_num [Maxspace.verifySize, WhatSpace.MiB, WhatSpace.KiB]) k 0
    (fun j hj => by simpa using hok j hj) (by simpa using hfail) (by simpa using hin)
  rw [Maxspace.VerifyTheFile, List.range_eq_range']
  simpa using h

/-- Witness for C3: block 0 passes, block 1 fails its seek; the pass reports
offset `1 * verifySize` and probes only blocks 0 and 1. -/
theorem claim_C3_witness :
    Maxspace.VerifyTheFile c3FailEnv 4096 false (3 * Maxspace.verifySize)
      = ⟨false, some (1 * Maxspace.verifySize), List.range 2⟩ :=
  claim_C3_probe_fail_fast c3FailEnv 4096 false (3 * Maxspace.verifySize) 1
    (by decide) (by decide) (by decide)

/-- Claim C6, counterexample: when `CreateFile` fails on the very first
segment, `CreateFiles` aborts but outputs no reached offset — the claim that
every failure condition reports `sequence_number * segment_size` is false. -/
theorem claim_C6_counterexample :
    Spacechk.CreateFiles c6CounterEnv [] Spacechk.fileIOSize = ⟨false, [], none⟩
    ∧ (Spacechk.CreateFiles c6CounterEnv [] Spacechk.fileIOSize).reported
        ≠ some (0 * Spacechk.fileIOSize) := by
  exact ⟨by decide, by decide⟩

/-- Claim C6 as amended: each of the three failure conditions immediately
aborts creation (segments `0..i-1` created, nothing after `i`), but only the
`WriteFile`-failure condition reports the failing file's starting byte offset
`i * fileIOSize`; a `CreateFile` failure and a short write abort without
reporting an offset. -/
theorem claim_C6_amended (env : Nat → Spacechk.WriteOutcome)
    (entries : List Spacechk.FindData) (totalSpace i : Nat)
    (hi : i < totalSpace / Spacechk.fileIOSize)
    (hok : ∀ j, j < i → env j = Spacechk.WriteOutcome.written Spacechk.fileIOSize) :
    (env i = Spacechk.WriteOutcome.createFail →
      Spacechk.CreateFiles env entries totalSpace = ⟨false, List.range i, none⟩)
    ∧ (env i = Spacechk.WriteOutcome.writeFail →
      Spacechk.CreateFiles env entries totalSpace
        = ⟨false, List.range i, some (i * Spacechk.fileIOSize)⟩)
    ∧ ∀ w, w ≠ Spacechk.fileIOSize → env i = Spacechk.WriteOutcome.written w →
      Spacechk.CreateFiles env entries totalSpace = ⟨false, List.range i, none⟩ := by
  have hCF : Spacechk.CreateFiles env entries totalSpace
      = Spacechk.CreateFilesLoop env 0 (totalSpace / Spacechk.fileIOSize) := rfl
  have hsplit := createLoop_split env i 0 (totalSpace / Spacechk.fileIOSize)
    (by omega) (fun j hj => by simpa using hok j hj)
  obtain ⟨m, hm⟩ : ∃ m, totalSpace / Spacechk.fileIOSize - i = m + 1 :=
    ⟨totalSpace / Spacechk.fileIOSize - i - 1, by omega⟩
  rw [Nat.zero_add] at hsplit
  refine ⟨?_, ?_, ?_⟩
  · intro hcase
    have hone : Spacechk.CreateFilesLoop env i (totalSpace / Spacechk.fileIOSize - i)
        = ⟨false, [], none⟩ := by
      rw [hm]
      simp only [Spacechk.CreateFilesLoop, hcase]
    rw [hCF, hsplit, hone]
    simp [List.range_eq_range']
  · intro hcase
    have hone : Spacechk.CreateFilesLoop env i (totalSpace / Spacechk.fileIOSize - i)
        = ⟨false, [], some (i * Spacechk.fileIOSize)⟩ := by
      rw [hm]
      simp only [Spacechk.CreateFilesLoop, hcase]
    rw [hCF, hsplit, hone]
    simp [List.range_eq_range']
  · intro w hw hcase
    have hone : Spacechk.CreateFilesLoop env i (totalSpace / Spacechk.fileIOSize - i)
        = ⟨false, [], none⟩ := by
      rw [hm]
      simp only [Spacechk.CreateFilesLoop, hcase, if_neg hw]
    rw [hCF, hsplit, hone]
    simp [List.range_eq_range']

/-- Witness for C6's amended theorem: files 0 and 1 succeed, the write of file
2 fails; creation aborts with segments 0 and 1 created and offset
`2 * fileIOSize` reported. -/
theorem claim_C6_witness :
    Spacechk.CreateFiles c6Env [] (5 * Spacechk.fileIOSize)
      = ⟨false, List.range 2, some (2 * Spacechk.fileIOSize)⟩ :=
  (claim_C6_amended c6Env [] (5 * Spacechk.fileIOSize) 2 (by decide)
    (by decide)).2.1 (by decide)

/-- Claim C7, counterexample: a file whose name even carries a parseable
sequence number (3) hits a `ReadFile` failure; `VerifyFiles` aborts but
outputs no reached offset — the claim that a read failure is reported with
`(sequence_number + 1) * segment_size` is false. -/
theorem claim_C7_counterexample :
    Spacechk.VerifyFilesLoop "e:\\" c7CounterStore false [⟨"sp-000003.bin", false⟩]
      = ⟨false, [], ["e:\\sp-000003.bin"]⟩
    ∧ (Spacechk.VerifyFilesLoop "e:\\" c7CounterStore false
        [⟨"sp-000003.bin", false⟩]).reported = [] := by
  exact ⟨by decide, by decide⟩

/-- Claim C7 as amended: a read failure and a short read abort verification
immediately (regardless of keep-verifying) without reporting an offset, while
a pattern mismatch is reported with `(sequence_number + 1) * fileIOSize` as
the capacity bound and, when keep-verifying is not enabled, verification then
stops (the remaining enumeration entries are not examined). -/
theorem claim_C7_amended (pathName : String) (store : String → Spacechk.ReadOutcome)
    (keepGoing : Bool) (fd : Spacechk.FindData) (rest : List Spacechk.FindData)
    (hdir : fd.isDirectory = false) :
    (store (pathName ++ fd.cFileName) = Spacechk.ReadOutcome.readFail →
      Spacechk.VerifyFilesLoop pathName store keepGoing (fd :: rest)
        = ⟨false, [], [pathName ++ fd.cFileName]⟩)
    ∧ (∀ n buf, n ≠ Spacechk.fileIOSize →
      store (pathName ++ fd.cFileName) = Spacechk.ReadOutcome.ok n buf →
      Spacechk.VerifyFilesLoop pathName store keepGoing (fd :: rest)
        = ⟨false, [], [pathName ++ fd.cFileName]⟩)
    ∧ ∀ buf seqChars, keepGoing = false →
      store (pathName ++ fd.cFileName)
        = Spacechk.ReadOutcome.ok Spacechk.fileIOSize buf →
      Spacechk.afterChar (pathName ++ fd.cFileName).toList '-' = some seqChars →
      (∃ off ∈ WhatSpace.stampOffsets Spacechk.fileIOSize,
        buf off ≠ WhatSpace.stampMarker (Spacechk.parseHex seqChars)) →
      Spacechk.VerifyFilesLoop pathName store keepGoing (fd :: rest)
        = ⟨false, [(Spacechk.parseHex seqChars + 1) * Spacechk.fileIOSize],
            [pathName ++ fd.cFileName]⟩ := by
  refine ⟨?_, ?_, ?_⟩
  · intro hstore
    simp [Spacechk.VerifyFilesLoop, hdir, hstore]
  · intro n buf hn hstore
    simp [Spacechk.VerifyFilesLoop, hdir, hstore, hn]
  · intro buf seqChars hkg hstore hafter hex
    subst hkg
    have hchk := checkOffsets_first_fail buf (Spacechk.parseHex seqChars)
      (WhatSpace.stampOffsets Spacechk.fileIOSize) hex
    rw [show (pathName ++ fd.cFileName).toList
        = pathName.data ++ fd.cFileName.data from by simp] at hafter
    simp [Spacechk.VerifyFilesLoop, hdir, hstore, hafter, hchk]

/-- Witness for C7's amended theorem: a dash-named file reads back all zeroes;
without keep-verifying, verification stops reporting
`(sequence_number + 1) * fileIOSize` for sequence number 3. -/
theorem claim_C7_witness :
    Spacechk.VerifyFilesLoop "e:\\" c7WitnessStore false [⟨"sp-000003.bin", false⟩]
      = ⟨false, [(Spacechk.parseHex ("000003.bin".toList) + 1) * Spacechk.fileIOSize],
          ["e:\\" ++ "sp-000003.bin"]⟩ :=
  (claim_C7_amended "e:\\" c7WitnessStore false ⟨"sp-000003.bin", false⟩ [] rfl).2.2
    WhatSpace.zeroBuf ("000003.bin".toList) rfl rfl (by decide) (by decide)

/-- Claim C8, counterexample: at file size 15 MiB (not divisible by the 10 MiB
unit), the single-file probe loop runs for offsets 0 and 10 MiB — it probes 2
blocks, including the trailing partial unit, while `floor(15 MiB / 10 MiB)`
is 1.  The last partial unit is probed, not truncated. -/
theorem claim_C8_counterexample :
    (Maxspace.VerifyTheFile (Maxspace.allOkBlockEnv 4096) 4096 false
        (15 * WhatSpace.MiB)).probed.length = 2
    ∧ (15 * WhatSpace.MiB) / Maxspace.verifySize = 1 := by
  constructor
  · have h := verifyLoop_all_ok (Maxspace.allOkBlockEnv 4096) 4096 false
      (fun j => blockStep_allOk 4096 false j) Maxspace.verifySize
      (by norm_num [Maxspace.verifySize, WhatSpace.MiB, WhatSpace.KiB])
      (15 * WhatSpace.MiB) (15 * WhatSpace.MiB) 0 0 (by omega)
    rw [Maxspace.VerifyTheFile, h]
    norm_num [Maxspace.verifySize, WhatSpace.MiB, WhatSpace.KiB]
  · norm_num [Maxspace.verifySize, WhatSpace.MiB, WhatSpace.KiB]

/-- Claim C8 as amended: on a fault-free device the segmented prober creates
exactly `floor(S / U)` segments (the trailing partial unit is truncated), the
single-file prober probes exactly `ceil(S / U)` blocks (the trailing partial
unit is probed at its starting offset, not truncated), and the two counts
agree exactly when `U` divides `S`. -/
theorem claim_C8_amended (S : Nat) :
    (∀ env entries,
      (∀ j, env j = Spacechk.WriteOutcome.written Spacechk.fileIOSize) →
      (Spacechk.CreateFiles env entries S).created.length = S / Spacechk.fileIOSize)
    ∧ (∀ env bps noReads,
      (∀ j, Maxspace.blockStep bps noReads j (env j) = false) →
      (Maxspace.VerifyTheFile env bps noReads S).probed.length
        = (S + Maxspace.verifySize - 1) / Maxspace.verifySize)
    ∧ (Maxspace.verifySize ∣ S →
      (S + Maxspace.verifySize - 1) / Maxspace.verifySize = S / Maxspace.verifySize) := by
  refine ⟨?_, ?_, ?_⟩
  · intro env entries hok
    have h := createLoop_all_ok env (S / Spacechk.fileIOSize) 0
      (fun j hj => by simpa using hok j)
    have hCF : Spacechk.CreateFiles env entries S
        = Spacechk.CreateFilesLoop env 0 (S / Spacechk.fileIOSize) := rfl
    rw [hCF, h]
    simp
  · intro env bps noReads hok
    have h := verifyLoop_all_ok env bps noReads hok Maxspace.verifySize
      (by norm_num [Maxspace.verifySize, WhatSpace.MiB, WhatSpace.KiB]) S S 0 0 (by omega)
    rw [Maxspace.VerifyTheFile, h]
    simp
  · intro hdvd
    obtain ⟨q, rfl⟩ := hdvd
    have hvs : Maxspace.verifySize = 10485760 := by
      norm_num [Maxspace.verifySize, WhatSpace.MiB, WhatSpace.KiB]
    rw [hvs]
    omega

/-- Witness for C8's amended theorem: a fault-free creation run over 15 MiB of
free space creates `floor(15 MiB / 10 MiB) = 1` segment. -/
theorem claim_C8_witness :
    (Spacechk.CreateFiles spacechkAllOk [] (15 * WhatSpace.MiB)).created.length
      = (15 * WhatSpace.MiB) / Spacechk.fileIOSize :=
  (claim_C8_amended (15 * WhatSpace.MiB)).1 spacechkAllOk [] (fun j => rfl)
